import Mathlib

/-!
# Formal model of the dedup docker registry (block-storage variant)

Shallow embedding of `src/block-storage/storage_backend.py` and
`src/block-storage/registry_api.py`.

Conventions of the embedding:
* file contents are byte lists (`Bytes := List Nat`);
* the on-disk state (`RegState`) holds the four directories of the
  storage root (`blocks/`, `layers/`, `uploads/`, `manifests/`) as
  association lists keyed by file name, plus the in-memory `BlockIndex`
  (`self.index` in `DedupStorage.__init__`);
* the two hash functions (`hashlib.sha256(..).hexdigest()` and
  `hashlib.sha1(..).hexdigest()`) are parameters of the model
  (a `HashModel`): the theorems are stated for an arbitrary pair of
  functions, with collision-freeness assumed only where a proof needs it;
* Python string operations used by the code (`str.startswith`,
  `str.replace`) are modelled character-exactly by `pyStartsWith` and
  `pyReplace` below.
-/

/-- Bytes of a file, one `Nat` per byte. -/
abbrev Bytes := List Nat

/-- Association-list lookup (model of "the file with this name exists /
its content"). First binding wins, mirroring a filesystem where names
are unique. -/
def alookup {κ α : Type} [DecidableEq κ] (k : κ) : List (κ × α) → Option α
  | [] => none
  | (k₂, v) :: t => if k = k₂ then some v else alookup k t

/-- Association-list insert-or-overwrite (model of writing a file). -/
def aset {κ α : Type} [DecidableEq κ] (k : κ) (v : α) : List (κ × α) → List (κ × α)
  | [] => [(k, v)]
  | (k₂, v₂) :: t => if k = k₂ then (k, v) :: t else (k₂, v₂) :: aset k v t

/-- Association-list removal (model of deleting a file). -/
def aremove {κ α : Type} [DecidableEq κ] (k : κ) : List (κ × α) → List (κ × α)
  | [] => []
  | (k₂, v₂) :: t => if k = k₂ then aremove k t else (k₂, v₂) :: aremove k t

/-- Python `s.startswith(pre)` on the characters of the strings. -/
def pyStartsWith (s pre : String) : Bool :=
  pre.data.isPrefixOf s.data

/-- One fuel-indexed pass of Python `str.replace`: scan left to right,
replace every non-overlapping occurrence of `old` by `new`.  The fuel is
only a structural-recursion device; `pyReplace` supplies fuel equal to
the string length, which is enough because every step consumes at least
one character. -/
def replaceFuel (old new : List Char) : Nat → List Char → List Char
  | 0, s => s
  | _ + 1, [] => []
  | fuel + 1, c :: rest =>
      if old.isPrefixOf (c :: rest) ∧ old ≠ [] then
        new ++ replaceFuel old new fuel (List.drop (old.length - 1) rest)
      else
        c :: replaceFuel old new fuel rest

/-- Python `s.replace(old, new)` (for nonempty `old`, which is the only
way the code uses it: `digest.replace('sha256:', '')`). -/
def pyReplace (s old new : String) : String :=
  ⟨replaceFuel old.data new.data s.data.length s.data⟩

/-- The blob id used as the `layers/` directory name:
`digest.replace('sha256:', '')` as in the Python code. -/
def blobIdOf (digest : String) : String :=
  pyReplace digest "sha256:" ""

/-- The pair of hex digest functions used by the code
(`hashlib.sha256(..).hexdigest()` and `hashlib.sha1(..).hexdigest()`),
kept abstract in the model. -/
structure HashModel where
  sha256hex : Bytes → String
  sha1hex : Bytes → String

/-- Contents of one `layers/<blob_id>/` directory: the three file names
the code reads or writes there (`config`, `data`, `recipe.json`).
`none` models an absent file. -/
structure LayerEntry where
  config : Option Bytes := none
  data : Option Bytes := none
  recipe : Option (List String) := none
  deriving Repr, DecidableEq

/-- The parts of a Flask response the claims talk about. -/
structure HttpResponse where
  status : Nat
  errorCode : Option String := none
  body : Option Bytes := none
  contentLength : Option Nat := none
  contentType : Option String := none
  dockerContentDigest : Option String := none
  deriving Repr, DecidableEq

/-- On-disk state of the registry plus the in-memory block index. -/
structure RegState where
  blocks : List (String × Bytes) := []
  layers : List (String × LayerEntry) := []
  uploads : List (String × Bytes) := []
  manifests : List ((String × String) × Bytes) := []
  index : List String := []
  deriving Repr, DecidableEq

/-- `f.read(4096)` loop of `DedupStorage.store_blob` (fuel-indexed body;
each iteration consumes at least one byte, so fuel = length suffices). -/
def chunkFuel : Nat → Bytes → List Bytes
  | 0, _ => []
  | fuel + 1, content =>
      if content = [] then []
      else content.take 4096 :: chunkFuel fuel (content.drop 4096)

/-- The consecutive 4096-byte windows of a byte string, as produced by
the `while True: chunk = f.read(4096)` loop. -/
def chunkWindows (content : Bytes) : List Bytes :=
  chunkFuel content.length content

/-- The chunk loop of `DedupStorage.store_blob` (lines 203-213 of
`src/block-storage/storage_backend.py`): for each chunk, hash it; if the
hash is not in `self.index`, write `blocks/<hash>` and record the hash
in the index; append the hash to the recipe.  Returns the new blocks
directory, the new index, and the recipe chunk list. -/
def installChunks (hm : HashModel) :
    List Bytes → List (String × Bytes) → List String →
    List (String × Bytes) × List String × List String
  | [], blocks, index => (blocks, index, [])
  | c :: rest, blocks, index =>
      if hm.sha1hex c ∈ index then
        let r := installChunks hm rest blocks index
        (r.1, r.2.1, hm.sha1hex c :: r.2.2)
      else
        let r := installChunks hm rest (aset (hm.sha1hex c) c blocks) (hm.sha1hex c :: index)
        (r.1, r.2.1, hm.sha1hex c :: r.2.2)

/-- Result of `DedupStorage.store_blob`: either the returned digest with
the new state, or the `ValueError` raised on digest mismatch. -/
inductive StoreResult
  | ok (st : RegState) (digest : String)
  | digestMismatch (computed declared : String)
  deriving Repr, DecidableEq

/-- `DedupStorage.store_blob` (the second, effective definition, lines
183-221 of `src/block-storage/storage_backend.py`): verify the declared
digest against the SHA-256 of the content; return early if
`layers/<blob_id>/` already exists; otherwise install the 4KB chunks
(consulting only `self.index`), write `recipe.json`, and write the full
content to `data`. -/
def store_blob (hm : HashModel) (st : RegState) (content : Bytes) (digest : String) :
    StoreResult :=
  let computed := "sha256:" ++ hm.sha256hex content
  if computed = digest then
    let blobId := blobIdOf digest
    match alookup blobId st.layers with
    | some _ => .ok st digest
    | none =>
        let r := installChunks hm (chunkWindows content) st.blocks st.index
        let e : LayerEntry := { config := none, data := some content, recipe := some r.2.2 }
        .ok { st with blocks := r.1, index := r.2.1, layers := aset blobId e st.layers } digest
  else .digestMismatch computed digest

/-- `DedupStorage.blob_exists` (lines 223-238): the digest must start
with `sha256:`; then any of `layers/<id>/config`, `layers/<id>/recipe.json`,
`layers/<id>/data`, `blocks/<id>` makes the blob exist. -/
def blob_exists (st : RegState) (digest : String) : Bool :=
  if pyStartsWith digest "sha256:" then
    let blobId := blobIdOf digest
    let e := (alookup blobId st.layers).getD {}
    e.config.isSome || e.recipe.isSome || e.data.isSome ||
      (alookup blobId st.blocks).isSome
  else false

/-- PUT `/v2/<name>/blobs/uploads/<id>` — `put_upload` in
`src/block-storage/registry_api.py` (lines 55-114).  `digestParam` is the
`digest` query parameter; `body` the request body (Flask's
`request.content_length` is its length).  The `finally:` block removes
the `.tmp` file and, when it still exists, the session file — on every
path, success or digest mismatch, the session file is gone afterwards. -/
def put_upload (hm : HashModel) (st : RegState) (uploadId : String)
    (digestParam : Option String) (body : Bytes) : RegState × HttpResponse :=
  match digestParam with
  | none =>
      (st, { status := 400, errorCode := some "DIGEST_INVALID",
             contentType := some "application/json" })
  | some digest =>
    if pyStartsWith digest "sha256:" then
      match alookup uploadId st.uploads with
      | none =>
          (st, { status := 404, errorCode := some "BLOB_UPLOAD_UNKNOWN",
                 contentType := some "application/json" })
      | some staged =>
          let received := if body.length ≠ 0 then body else staged
          match store_blob hm st received digest with
          | .ok st' d =>
              ({ st' with uploads := aremove uploadId st'.uploads },
               { status := 201, dockerContentDigest := some d,
                 contentLength := some 0,
                 contentType := some "application/octet-stream" })
          | .digestMismatch _ _ =>
              ({ st with uploads := aremove uploadId st.uploads },
               { status := 400, errorCode := some "DIGEST_INVALID",
                 contentType := some "application/json" })
    else
      (st, { status := 400, errorCode := some "DIGEST_INVALID",
             contentType := some "application/json" })

/-- PATCH `/v2/<name>/blobs/uploads/<id>` — `patch_upload` (lines
116-162): 404 if the session file is absent; 400 `BLOB_UPLOAD_INVALID`
on an empty body (the file is opened in append mode but nothing is
written before the early return); otherwise append and answer 202. -/
def patch_upload (st : RegState) (uploadId : String) (body : Bytes) :
    RegState × HttpResponse :=
  match alookup uploadId st.uploads with
  | none =>
      (st, { status := 404, errorCode := some "BLOB_UPLOAD_UNKNOWN",
             contentType := some "application/json" })
  | some staged =>
      if body = [] then
        (st, { status := 400, errorCode := some "BLOB_UPLOAD_INVALID",
               contentType := some "application/json" })
      else
        ({ st with uploads := aset uploadId (staged ++ body) st.uploads },
         { status := 202, contentLength := some 0,
           contentType := some "application/octet-stream" })

/-- DELETE `/v2/<name>/blobs/uploads/<id>` — `delete_upload` (lines
164-169): unlink the session file if it exists, always answer 204. -/
def delete_upload (st : RegState) (uploadId : String) :
    RegState × HttpResponse :=
  ({ st with uploads := aremove uploadId st.uploads }, { status := 204 })

/-- The two manifest content types accepted by `put_manifest`. -/
def supportedManifestTypes : List String :=
  ["application/vnd.docker.distribution.manifest.v2+json",
   "application/vnd.oci.image.manifest.v1+json"]

/-- A manifest body after the JSON parse and structural check of
`put_manifest` (the parse itself — `json.loads` plus the presence check
of the `schemaVersion`/`layers`/`config` keys — is outside the model;
claims about manifests assume a structurally valid document). -/
structure Manifest where
  layerDigests : List String
  configDigest : String
  deriving Repr, DecidableEq

/-- PUT `/v2/<name>/manifests/<reference>` — `put_manifest` (lines
171-242): reject unsupported content types; 404 `BLOB_UNKNOWN` if any
`layers[].digest` or the `config.digest` fails `blob_exists`; otherwise
write the raw bytes under both the reference and the computed manifest
digest and answer 201 echoing the request content type. -/
def put_manifest (hm : HashModel) (st : RegState) (name reference : String)
    (contentType : Option String) (manifest : Manifest) (manifestData : Bytes) :
    RegState × HttpResponse :=
  match contentType with
  | none =>
      (st, { status := 400, errorCode := some "MANIFEST_INVALID",
             contentType := some "application/json" })
  | some ct =>
    if ct ∈ supportedManifestTypes then
      match manifest.layerDigests.find? (fun d => ! blob_exists st d) with
      | some _ =>
          (st, { status := 404, errorCode := some "BLOB_UNKNOWN",
                 contentType := some "application/json" })
      | none =>
          if blob_exists st manifest.configDigest then
            let mdigest := "sha256:" ++ hm.sha256hex manifestData
            let ms := aset (name, mdigest) manifestData
              (aset (name, reference) manifestData st.manifests)
            ({ st with manifests := ms },
             { status := 201, dockerContentDigest := some mdigest,
               contentType := some ct })
          else
            (st, { status := 404, errorCode := some "BLOB_UNKNOWN",
                   contentType := some "application/json" })
    else
      (st, { status := 400, errorCode := some "MANIFEST_INVALID",
             contentType := some "application/json" })

/-- GET `/v2/<name>/manifests/<reference>` — `get_manifest` (lines
244-263): 404 if the file is absent; otherwise the raw bytes with the
hard-coded mimetype `application/vnd.docker.distribution.manifest.v2+json`
and the digest recomputed from the bytes. -/
def get_manifest (hm : HashModel) (st : RegState) (name reference : String) :
    HttpResponse :=
  match alookup (name, reference) st.manifests with
  | none =>
      { status := 404, errorCode := some "MANIFEST_UNKNOWN",
        contentType := some "application/json" }
  | some content =>
      { status := 200, body := some content,
        contentLength := some content.length,
        contentType := some "application/vnd.docker.distribution.manifest.v2+json",
        dockerContentDigest := some ("sha256:" ++ hm.sha256hex content) }

/-- Contents of every block referenced by a recipe, `none` as soon as
one is missing (the `FileNotFoundError` raised in `get_blob`'s size
loop). -/
def chunksContents (st : RegState) : List String → Option (List Bytes)
  | [] => some []
  | c :: rest =>
      match alookup c st.blocks, chunksContents st rest with
      | some b, some bs => some (b :: bs)
      | _, _ => none

/-- GET `/v2/<name>/blobs/<digest>` — `get_blob` (lines 265-334): digest
shape check; then `layers/<id>/config`, `layers/<id>/data`,
`layers/<id>/recipe.json` in order.  The recipe branch sums the block
file sizes (404 `BLOB_UNKNOWN` if any block is missing) and streams the
blocks in order. -/
def get_blob (st : RegState) (digest : String) : HttpResponse :=
  if pyStartsWith digest "sha256:" then
    let blobId := blobIdOf digest
    let e := (alookup blobId st.layers).getD {}
    match e.config with
    | some cfg =>
        { status := 200, body := some cfg, contentLength := some cfg.length,
          contentType := some "application/octet-stream",
          dockerContentDigest := some digest }
    | none =>
      match e.data with
      | some d =>
          { status := 200, body := some d, contentLength := some d.length,
            contentType := some "application/octet-stream",
            dockerContentDigest := some digest }
      | none =>
        match e.recipe with
        | some chunks =>
          match chunksContents st chunks with
          | some bs =>
              { status := 200, body := some bs.flatten,
                contentLength := some (bs.map List.length).sum,
                contentType := some "application/octet-stream",
                dockerContentDigest := some digest }
          | none =>
              { status := 404, errorCode := some "BLOB_UNKNOWN",
                contentType := some "application/json" }
        | none =>
            { status := 404, errorCode := some "BLOB_UNKNOWN",
              contentType := some "application/json" }
  else
    { status := 400, errorCode := some "DIGEST_INVALID",
      contentType := some "application/json" }

/-- HEAD `/v2/<name>/blobs/<digest>` — `head_blob` (lines 336-393):
digest shape check; then `config`, `data`, `recipe.json`, and the direct
`blocks/<id>` file in order.  NOTE the recipe branch sums block sizes
with an `if (..).exists()` guard, silently skipping missing blocks and
still answering 200. -/
def head_blob (st : RegState) (digest : String) : HttpResponse :=
  if pyStartsWith digest "sha256:" then
    let blobId := blobIdOf digest
    let e := (alookup blobId st.layers).getD {}
    match e.config with
    | some cfg =>
        { status := 200, contentLength := some cfg.length,
          contentType := some "application/octet-stream",
          dockerContentDigest := some digest }
    | none =>
      match e.data with
      | some d =>
          { status := 200, contentLength := some d.length,
            contentType := some "application/octet-stream",
            dockerContentDigest := some digest }
      | none =>
        match e.recipe with
        | some chunks =>
            { status := 200,
              contentLength :=
                some ((chunks.filterMap (fun h => alookup h st.blocks)).map
                  List.length).sum,
              contentType := some "application/octet-stream",
              dockerContentDigest := some digest }
        | none =>
          match alookup blobId st.blocks with
          | some b =>
              { status := 200, contentLength := some b.length,
                contentType := some "application/octet-stream",
                dockerContentDigest := some digest }
          | none =>
              { status := 404, errorCode := some "BLOB_UNKNOWN",
                contentType := some "application/json" }
  else
    { status := 400, errorCode := some "DIGEST_INVALID",
      contentType := some "application/json" }

/-- Well-formedness of the `layers/` directory as produced by the API:
`put_upload` is the only handler that writes there, and it always writes
a `data` file whose bytes hash (through `blobIdOf ∘ ("sha256:" ++ ·)`)
to the directory name, and never a `config` file. -/
def LayersInv (hm : HashModel) (st : RegState) : Prop :=
  ∀ id e, alookup id st.layers = some e →
    e.config = none ∧ ∃ Y, e.data = some Y ∧
      blobIdOf ("sha256:" ++ hm.sha256hex Y) = id

/-! ## Helper lemmas about the model primitives -/

theorem alookup_aset_self {κ α : Type} [DecidableEq κ] (k : κ) (v : α)
    (l : List (κ × α)) : alookup k (aset k v l) = some v := by
  induction l with
  | nil => simp [aset, alookup]
  | cons p t ih =>
      by_cases h : k = p.1
      · simp [aset, alookup, h]
      · simp [aset, alookup, h, ih]

theorem alookup_aset_ne {κ α : Type} [DecidableEq κ] {k k₂ : κ} (v : α)
    (l : List (κ × α)) (h : k ≠ k₂) :
    alookup k (aset k₂ v l) = alookup k l := by
  induction l with
  | nil => simp [aset, alookup, h]
  | cons p t ih =>
      by_cases h₂ : k₂ = p.1
      · subst h₂
        simp [aset, alookup, h]
      · by_cases h₃ : k = p.1
        · simp [aset, alookup, h₂, h₃]
        · simp [aset, alookup, h₂, h₃, ih]

theorem alookup_aremove_self {κ α : Type} [DecidableEq κ] (k : κ)
    (l : List (κ × α)) : alookup k (aremove k l) = none := by
  induction l with
  | nil => simp [aremove, alookup]
  | cons p t ih =>
      by_cases h : k = p.1
      · subst h
        simp [aremove, ih]
      · simp [aremove, alookup, h, ih]

theorem length_aset_le {κ α : Type} [DecidableEq κ] (k : κ) (v : α)
    (l : List (κ × α)) : (aset k v l).length ≤ l.length + 1 := by
  induction l with
  | nil => simp [aset]
  | cons p t ih =>
      by_cases h : k = p.1
      · simp [aset, h]
      · simpa [aset, h] using Nat.succ_le_succ ih

theorem pyStartsWith_append (pre t : String) :
    pyStartsWith (pre ++ t) pre = true := by
  simp [pyStartsWith, String.data_append, List.isPrefixOf_iff_prefix]

/-- `chunkFuel` does not depend on the fuel once the fuel covers the
length of the input. -/
theorem chunkFuel_fuel_irrel (fuel₁ fuel₂ : Nat) (X : Bytes)
    (h₁ : X.length ≤ fuel₁) (h₂ : X.length ≤ fuel₂) :
    chunkFuel fuel₁ X = chunkFuel fuel₂ X := by
  induction fuel₁ generalizing fuel₂ X with
  | zero =>
      have hX : X = [] := List.length_eq_zero.mp (Nat.le_zero.mp h₁)
      subst hX
      cases fuel₂ <;> simp [chunkFuel]
  | succ n ih =>
      cases fuel₂ with
      | zero =>
          have hX : X = [] := List.length_eq_zero.mp (Nat.le_zero.mp h₂)
          subst hX
          simp [chunkFuel]
      | succ m =>
          by_cases hX : X = []
          · simp [chunkFuel, hX]
          · have hlen : 1 ≤ X.length := by
              cases X with
              | nil => exact absurd rfl hX
              | cons a t => simp
            have hdrop : (X.drop 4096).length ≤ n := by
              simp only [List.length_drop]
              omega
            have hdrop₂ : (X.drop 4096).length ≤ m := by
              simp only [List.length_drop]
              omega
            simp [chunkFuel, hX, ih m (X.drop 4096) hdrop hdrop₂]

theorem chunkWindows_nil : chunkWindows [] = [] := by
  simp [chunkWindows, chunkFuel]

/-- Unfolding equation of the read-loop on a nonempty input. -/
theorem chunkWindows_cons (X : Bytes) (hX : X ≠ []) :
    chunkWindows X = X.take 4096 :: chunkWindows (X.drop 4096) := by
  have hlen : 1 ≤ X.length := by
    cases X with
    | nil => exact absurd rfl hX
    | cons a t => simp
  obtain ⟨n, hn⟩ : ∃ n, X.length = n + 1 := ⟨X.length - 1, by omega⟩
  have hstep : chunkWindows X = X.take 4096 :: chunkFuel n (X.drop 4096) := by
    simp only [chunkWindows, hn, chunkFuel, hX, if_false]
  rw [hstep]
  have hdrop : (X.drop 4096).length ≤ n := by
    simp only [List.length_drop]
    omega
  rw [chunkFuel_fuel_irrel n (X.drop 4096).length (X.drop 4096) hdrop le_rfl]
  rfl

/-- Concatenating the windows restores the original bytes: the windows
are consecutive and complete. -/
theorem chunkWindows_flatten (X : Bytes) : (chunkWindows X).flatten = X := by
  suffices h : ∀ n X, List.length X ≤ n → (chunkWindows X).flatten = X from
    h X.length X le_rfl
  intro n
  induction n with
  | zero =>
      intro X hX
      have : X = [] := List.length_eq_zero.mp (Nat.le_zero.mp hX)
      simp [this, chunkWindows_nil]
  | succ n ih =>
      intro X hXn
      by_cases hX : X = []
      · simp [hX, chunkWindows_nil]
      · have hlen : 1 ≤ X.length := by
          cases X with
          | nil => exact absurd rfl hX
          | cons a t => simp
        rw [chunkWindows_cons X hX]
        have hdrop : (X.drop 4096).length ≤ n := by
          simp only [List.length_drop]
          omega
        simp only [List.flatten_cons, ih (X.drop 4096) hdrop]
        exact List.take_append_drop 4096 X

/-- The i-th window is exactly the fixed-size slice
`X[4096*i : 4096*(i+1)]`: the windows are the consecutive 4096-byte
slices of the content, the last one possibly shorter. -/
theorem chunkWindows_getElem? (X : Bytes) (i : Nat) :
    (chunkWindows X)[i]? =
      if 4096 * i < X.length then some ((X.drop (4096 * i)).take 4096)
      else none := by
  suffices h : ∀ n X, List.length X ≤ n → ∀ i : Nat,
      (chunkWindows X)[i]? =
        if 4096 * i < X.length then some ((X.drop (4096 * i)).take 4096)
        else none from h X.length X le_rfl i
  intro n
  induction n with
  | zero =>
      intro X hX i
      have : X = [] := List.length_eq_zero.mp (Nat.le_zero.mp hX)
      simp [this, chunkWindows_nil]
  | succ n ih =>
      intro X hXn i
      by_cases hX : X = []
      · simp [hX, chunkWindows_nil]
      · have hlen : 1 ≤ X.length := by
          cases X with
          | nil => exact absurd rfl hX
          | cons a t => simp
        rw [chunkWindows_cons X hX]
        cases i with
        | zero =>
            have h0 : 4096 * 0 < X.length := by omega
            simp only [List.getElem?_cons_zero, if_pos h0, Nat.mul_zero,
              List.drop_zero]
        | succ i =>
            have hdrop : (X.drop 4096).length ≤ n := by
              simp only [List.length_drop]
              omega
            have harg := ih (X.drop 4096) hdrop i
            simp only [List.getElem?_cons_succ, harg, List.length_drop,
              List.drop_drop]
            have heq : 4096 + 4096 * i = 4096 * (i + 1) := by ring
            by_cases hc : 4096 * i < X.length - 4096
            · have hc₂ : 4096 * (i + 1) < X.length := by omega
              rw [if_pos hc, if_pos hc₂, heq]
            · have hc₂ : ¬ 4096 * (i + 1) < X.length := by omega
              rw [if_neg hc, if_neg hc₂]

/-- The recipe produced by the chunk loop is the SHA-1 of every window,
in window order. -/
theorem installChunks_recipe (hm : HashModel) (cs : List Bytes) :
    ∀ blocks index, (installChunks hm cs blocks index).2.2 = cs.map hm.sha1hex := by
  induction cs with
  | nil => intro blocks index; simp [installChunks]
  | cons c rest ih =>
      intro blocks index
      by_cases h : hm.sha1hex c ∈ index
      · simp [installChunks, h, ih]
      · simp [installChunks, h, ih]

/-- A fingerprint already recorded in the index is never (re)written by
the chunk loop: its `blocks/` file is untouched. -/
theorem installChunks_lookup_indexed (hm : HashModel) (cs : List Bytes) :
    ∀ blocks index (fp : String), fp ∈ index →
      alookup fp (installChunks hm cs blocks index).1 = alookup fp blocks := by
  induction cs with
  | nil => intro blocks index fp _; simp [installChunks]
  | cons c rest ih =>
      intro blocks index fp hfp
      by_cases h : hm.sha1hex c ∈ index
      · simp [installChunks, h, ih blocks index fp hfp]
      · have hne : fp ≠ hm.sha1hex c := fun he => h (he ▸ hfp)
        simp only [installChunks, if_neg h]
        rw [ih _ _ fp (List.mem_cons_of_mem _ hfp)]
        exact alookup_aset_ne _ _ hne

/-- The chunk loop only ever grows the index. -/
theorem installChunks_index_mono (hm : HashModel) (cs : List Bytes) :
    ∀ blocks index (fp : String), fp ∈ index →
      fp ∈ (installChunks hm cs blocks index).2.1 := by
  induction cs with
  | nil => intro blocks index fp hfp; simpa [installChunks] using hfp
  | cons c rest ih =>
      intro blocks index fp hfp
      by_cases h : hm.sha1hex c ∈ index
      · simpa [installChunks, h] using ih blocks index fp hfp
      · simpa [installChunks, h] using
          ih _ _ fp (List.mem_cons_of_mem _ hfp)

/-- After the chunk loop, every window's fingerprint is in the index. -/
theorem installChunks_window_indexed (hm : HashModel) (cs : List Bytes) :
    ∀ blocks index (c : Bytes), c ∈ cs →
      hm.sha1hex c ∈ (installChunks hm cs blocks index).2.1 := by
  induction cs with
  | nil => intro _ _ c hc; simp at hc
  | cons c₀ rest ih =>
      intro blocks index c hc
      by_cases h : hm.sha1hex c₀ ∈ index
      · rcases List.mem_cons.mp hc with hc | hc
        · subst hc
          simpa [installChunks, h] using
            installChunks_index_mono hm rest blocks index _ h
        · simpa [installChunks, h] using ih blocks index c hc
      · rcases List.mem_cons.mp hc with hc | hc
        · subst hc
          simpa [installChunks, h] using
            installChunks_index_mono hm rest _ _ _ (List.mem_cons_self _ _)
        · simpa [installChunks, h] using ih _ _ c hc

/-- A window whose fingerprint was not yet indexed ends up with a
`blocks/` file holding some window with that same fingerprint. -/
theorem installChunks_new_written (hm : HashModel) (cs : List Bytes) :
    ∀ blocks index (c : Bytes), c ∈ cs → hm.sha1hex c ∉ index →
      ∃ w, alookup (hm.sha1hex c) (installChunks hm cs blocks index).1 = some w ∧
        hm.sha1hex w = hm.sha1hex c ∧ w ∈ cs := by
  induction cs with
  | nil => intro _ _ c hc _; simp at hc
  | cons c₀ rest ih =>
      intro blocks index c hc hni
      rcases List.mem_cons.mp hc with hc | hc
      · subst hc
        rw [show installChunks hm (c :: rest) blocks index =
            (let r := installChunks hm rest (aset (hm.sha1hex c) c blocks)
              (hm.sha1hex c :: index)
             (r.1, r.2.1, hm.sha1hex c :: r.2.2)) by
          simp [installChunks, hni]]
        refine ⟨c, ?_, rfl, List.mem_cons_self _ _⟩
        rw [installChunks_lookup_indexed hm rest _ _ _ (List.mem_cons_self _ _)]
        exact alookup_aset_self _ _ _
      · by_cases h : hm.sha1hex c₀ ∈ index
        · obtain ⟨w, hw, hw₂, hw₃⟩ := ih blocks index c hc hni
          refine ⟨w, ?_, hw₂, List.mem_cons_of_mem _ hw₃⟩
          simpa [installChunks, h] using hw
        · by_cases hsame : hm.sha1hex c = hm.sha1hex c₀
          · refine ⟨c₀, ?_, hsame.symm, List.mem_cons_self _ _⟩
            have hmem : hm.sha1hex c ∈ hm.sha1hex c₀ :: index := by
              simp [hsame]
            have := installChunks_lookup_indexed hm rest
              (aset (hm.sha1hex c₀) c₀ blocks) (hm.sha1hex c₀ :: index)
              (hm.sha1hex c) hmem
            simp only [installChunks, if_neg h]
            rw [this, hsame, alookup_aset_self]
          · have hni' : hm.sha1hex c ∉ hm.sha1hex c₀ :: index := by
              intro hmem
              rcases List.mem_cons.mp hmem with he | he
              · exact hsame he
              · exact hni he
            obtain ⟨w, hw, hw₂, hw₃⟩ := ih (aset (hm.sha1hex c₀) c₀ blocks)
              (hm.sha1hex c₀ :: index) c hc hni'
            refine ⟨w, ?_, hw₂, List.mem_cons_of_mem _ hw₃⟩
            simpa [installChunks, h] using hw

/-- Evaluating the chunk loop on a two-identical-window recipe: at most
one new file appears under `blocks/`, and none at all if the fingerprint
was already indexed. -/
theorem installChunks_pair (hm : HashModel) (w : Bytes)
    (blocks : List (String × Bytes)) (index : List String) :
    (installChunks hm [w, w] blocks index).1.length ≤ blocks.length + 1 ∧
    (hm.sha1hex w ∈ index → (installChunks hm [w, w] blocks index).1 = blocks) := by
  by_cases h : hm.sha1hex w ∈ index
  · simp [installChunks, h]
  · have h2 : hm.sha1hex w ∈ hm.sha1hex w :: index := List.mem_cons_self _ _
    refine ⟨?_, fun hmem => absurd hmem h⟩
    simp [installChunks, h, h2, length_aset_le]

/-- A missing block makes `chunksContents` fail (the `FileNotFoundError`
of `get_blob`'s size loop). -/
theorem chunksContents_eq_none (st : RegState) (chunks : List String)
    (hfp : ∃ fp ∈ chunks, alookup fp st.blocks = none) :
    chunksContents st chunks = none := by
  induction chunks with
  | nil => simp at hfp
  | cons c rest ih =>
      obtain ⟨fp, hmem, hnone⟩ := hfp
      rcases List.mem_cons.mp hmem with he | he
      · subst he
        simp [chunksContents, hnone]
      · by_cases hc : alookup c st.blocks = none
        · simp [chunksContents, hc]
        · obtain ⟨b, hb⟩ := Option.ne_none_iff_exists'.mp hc
          have := ih ⟨fp, he, hnone⟩
          simp [chunksContents, hb, this]

/-- When every referenced block is present, the guarded sum of
`head_blob` ranges over exactly the blocks of the recipe. -/
theorem chunksContents_filterMap (st : RegState) (chunks : List String) :
    ∀ bs, chunksContents st chunks = some bs →
      chunks.filterMap (fun fp => alookup fp st.blocks) = bs := by
  induction chunks with
  | nil =>
      intro bs h
      simp only [chunksContents] at h
      simp [← Option.some_inj.mp h]
  | cons c rest ih =>
      intro bs h
      simp only [chunksContents] at h
      cases hc : alookup c st.blocks with
      | none => rw [hc] at h; simp at h
      | some b =>
          rw [hc] at h
          cases hrest : chunksContents st rest with
          | none => rw [hrest] at h; simp at h
          | some bs' =>
              rw [hrest] at h
              simp only [Option.some_inj] at h
              simp [List.filterMap_cons, hc, ih bs' hrest, ← h]

/-- The window decomposition of 8192 zero bytes: two identical windows
of 4096 zero bytes. -/
theorem chunkWindows_zeros8192 :
    chunkWindows (List.replicate 8192 (0 : Nat)) =
      [List.replicate 4096 0, List.replicate 4096 0] := by
  have h1 : List.replicate 8192 (0 : Nat) ≠ [] := by
    intro h
    have := congrArg List.length h
    simp only [List.length_replicate, List.length_nil] at this
    omega
  have h2 : List.replicate 4096 (0 : Nat) ≠ [] := by
    intro h
    have := congrArg List.length h
    simp only [List.length_replicate, List.length_nil] at this
    omega
  rw [chunkWindows_cons _ h1, List.take_replicate, List.drop_replicate]
  norm_num
  rw [chunkWindows_cons _ h2, List.take_replicate, List.drop_replicate]
  norm_num
  exact chunkWindows_nil

/-! ## The claims -/

/-- **C10.** DELETE `/v2/<name>/blobs/uploads/<id>` answers 204 for every
upload id — also when the session file does not exist — carries no error
code, and is idempotent: repeating the DELETE answers 204 again. -/
theorem c10_delete_upload_idempotent (st : RegState) (uid : String) :
    (delete_upload st uid).2.status = 204 ∧
    (delete_upload st uid).2.errorCode = none ∧
    alookup uid (delete_upload st uid).1.uploads = none ∧
    (delete_upload (delete_upload st uid).1 uid).2.status = 204 := by
  refine ⟨rfl, rfl, ?_, rfl⟩
  simp [delete_upload, alookup_aremove_self]

/-- **C8.** A PATCH with an empty body to an existing upload session
fails with 400 `BLOB_UPLOAD_INVALID` and leaves the whole state — in
particular the session file and its length — unchanged. -/
theorem c8_empty_patch_rejected (st : RegState) (uid : String) (staged : Bytes)
    (hsession : alookup uid st.uploads = some staged) :
    (patch_upload st uid []).2.status = 400 ∧
    (patch_upload st uid []).2.errorCode = some "BLOB_UPLOAD_INVALID" ∧
    (patch_upload st uid []).1 = st := by
  simp [patch_upload, hsession]

theorem c8_empty_patch_rejected_witness :
    (patch_upload { uploads := [("u", [1, 2])] } "u" []).2.status = 400 ∧
    (patch_upload { uploads := [("u", [1, 2])] } "u" []).2.errorCode =
      some "BLOB_UPLOAD_INVALID" ∧
    (patch_upload { uploads := [("u", [1, 2])] } "u" []).1 =
      { uploads := [("u", [1, 2])] } :=
  c8_empty_patch_rejected { uploads := [("u", [1, 2])] } "u" [1, 2] (by decide)

/-- **C2.** A finalize PUT whose declared digest differs from the SHA-256
of the received bytes answers 400 `DIGEST_INVALID`, and neither
`layers/` nor `blocks/` changes (`store_blob` raises before creating
`layers/<blob_id>/`). -/
theorem c2_digest_enforcement (hm : HashModel) (st : RegState)
    (uid digest : String) (body staged : Bytes)
    (hsession : alookup uid st.uploads = some staged)
    (hpre : pyStartsWith digest "sha256:" = true)
    (hmismatch :
      "sha256:" ++ hm.sha256hex (if body.length ≠ 0 then body else staged) ≠ digest) :
    (put_upload hm st uid (some digest) body).2.status = 400 ∧
    (put_upload hm st uid (some digest) body).2.errorCode = some "DIGEST_INVALID" ∧
    (put_upload hm st uid (some digest) body).1.layers = st.layers ∧
    (put_upload hm st uid (some digest) body).1.blocks = st.blocks := by
  simp only [put_upload, hpre, if_true, hsession, store_blob, if_neg hmismatch]
  simp

theorem c2_digest_enforcement_witness :
    (put_upload ⟨fun _ => "h", fun _ => "f"⟩ { uploads := [("u", [5])] }
        "u" (some "sha256:zz") []).2.status = 400 ∧
    (put_upload ⟨fun _ => "h", fun _ => "f"⟩ { uploads := [("u", [5])] }
        "u" (some "sha256:zz") []).2.errorCode = some "DIGEST_INVALID" ∧
    (put_upload ⟨fun _ => "h", fun _ => "f"⟩ { uploads := [("u", [5])] }
        "u" (some "sha256:zz") []).1.layers =
      ({ uploads := [("u", [5])] } : RegState).layers ∧
    (put_upload ⟨fun _ => "h", fun _ => "f"⟩ { uploads := [("u", [5])] }
        "u" (some "sha256:zz") []).1.blocks =
      ({ uploads := [("u", [5])] } : RegState).blocks :=
  c2_digest_enforcement ⟨fun _ => "h", fun _ => "f"⟩ { uploads := [("u", [5])] }
    "u" "sha256:zz" [] [5] (by decide) (by decide) (by decide)

/-- **C4, counterexample.** After a finalize PUT that fails with a digest
mismatch, the session file `uploads/<id>` is *gone*: the `finally:`
block of `put_upload` removes it.  Here the session `"u"` exists before
the PUT, the PUT answers 400 `DIGEST_INVALID`, and afterwards the
session file no longer exists — contradicting the claim that it remains
present for a retry. -/
theorem c4_counterexample :
    alookup "u" ({ uploads := [("u", [104, 105])] } : RegState).uploads =
      some [104, 105] ∧
    (put_upload ⟨fun _ => "0000", fun _ => "f"⟩
        { uploads := [("u", [104, 105])] } "u" (some "sha256:9999") []).2.status = 400 ∧
    (put_upload ⟨fun _ => "0000", fun _ => "f"⟩
        { uploads := [("u", [104, 105])] } "u" (some "sha256:9999") []).2.errorCode =
      some "DIGEST_INVALID" ∧
    alookup "u" (put_upload ⟨fun _ => "0000", fun _ => "f"⟩
        { uploads := [("u", [104, 105])] } "u" (some "sha256:9999") []).1.uploads =
      none := by
  decide

/-- **C4, amended.** On a digest-mismatch finalize PUT the temporary
staging file *and* the session file are both deleted (the `finally:`
block removes whichever of the two still exists), so a retry of the PUT
on the same session fails with 404 `BLOB_UPLOAD_UNKNOWN`. -/
theorem c4_failed_put_removes_session (hm : HashModel) (st : RegState)
    (uid digest : String) (body staged : Bytes)
    (hsession : alookup uid st.uploads = some staged)
    (hpre : pyStartsWith digest "sha256:" = true)
    (hmismatch :
      "sha256:" ++ hm.sha256hex (if body.length ≠ 0 then body else staged) ≠ digest) :
    (put_upload hm st uid (some digest) body).2.status = 400 ∧
    (put_upload hm st uid (some digest) body).2.errorCode = some "DIGEST_INVALID" ∧
    alookup uid (put_upload hm st uid (some digest) body).1.uploads = none ∧
    (put_upload hm (put_upload hm st uid (some digest) body).1 uid
        (some digest) body).2.status = 404 ∧
    (put_upload hm (put_upload hm st uid (some digest) body).1 uid
        (some digest) body).2.errorCode = some "BLOB_UPLOAD_UNKNOWN" := by
  have hstate : (put_upload hm st uid (some digest) body).1 =
      { st with uploads := aremove uid st.uploads } := by
    simp only [put_upload, hpre, if_true, hsession, store_blob, if_neg hmismatch]
  have hresp : (put_upload hm st uid (some digest) body).2 =
      { status := 400, errorCode := some "DIGEST_INVALID",
        contentType := some "application/json" } := by
    simp only [put_upload, hpre, if_true, hsession, store_blob, if_neg hmismatch]
  have hgone : alookup uid (put_upload hm st uid (some digest) body).1.uploads = none := by
    rw [hstate]
    exact alookup_aremove_self uid st.uploads
  refine ⟨by rw [hresp], by rw [hresp], hgone, ?_, ?_⟩ <;>
  · rw [hstate]
    simp [put_upload, hpre, alookup_aremove_self]

theorem c4_failed_put_removes_session_witness :
    (put_upload ⟨fun _ => "0", fun _ => "f"⟩ { uploads := [("v", [7])] }
        "v" (some "sha256:1") []).2.status = 400 ∧
    (put_upload ⟨fun _ => "0", fun _ => "f"⟩ { uploads := [("v", [7])] }
        "v" (some "sha256:1") []).2.errorCode = some "DIGEST_INVALID" ∧
    alookup "v" (put_upload ⟨fun _ => "0", fun _ => "f"⟩ { uploads := [("v", [7])] }
        "v" (some "sha256:1") []).1.uploads = none ∧
    (put_upload ⟨fun _ => "0", fun _ => "f"⟩
        (put_upload ⟨fun _ => "0", fun _ => "f"⟩ { uploads := [("v", [7])] }
          "v" (some "sha256:1") []).1 "v" (some "sha256:1") []).2.status = 404 ∧
    (put_upload ⟨fun _ => "0", fun _ => "f"⟩
        (put_upload ⟨fun _ => "0", fun _ => "f"⟩ { uploads := [("v", [7])] }
          "v" (some "sha256:1") []).1 "v" (some "sha256:1") []).2.errorCode =
      some "BLOB_UPLOAD_UNKNOWN" :=
  c4_failed_put_removes_session ⟨fun _ => "0", fun _ => "f"⟩
    { uploads := [("v", [7])] } "v" "sha256:1" [] [7]
    (by decide) (by decide) (by decide)

/-- **C9, counterexample.** A manifest PUT with the OCI content type
succeeds (201), but the subsequent GET answers with the hard-coded
Docker v2 content type, not the stored one: `get_manifest` passes
`mimetype='application/vnd.docker.distribution.manifest.v2+json'`
unconditionally. -/
theorem c9_counterexample :
    (put_manifest ⟨fun _ => "m", fun _ => "f"⟩ { blocks := [("c", [0])] }
        "repo" "latest" (some "application/vnd.oci.image.manifest.v1+json")
        ⟨[], "sha256:c"⟩ [123]).2.status = 201 ∧
    (get_manifest ⟨fun _ => "m", fun _ => "f"⟩
        (put_manifest ⟨fun _ => "m", fun _ => "f"⟩ { blocks := [("c", [0])] }
          "repo" "latest" (some "application/vnd.oci.image.manifest.v1+json")
          ⟨[], "sha256:c"⟩ [123]).1 "repo" "latest").contentType =
      some "application/vnd.docker.distribution.manifest.v2+json" ∧
    (some "application/vnd.docker.distribution.manifest.v2+json" : Option String) ≠
      some "application/vnd.oci.image.manifest.v1+json" := by
  decide

/-- **C9, amended.** A GET of any stored manifest answers 200 with
`Content-Type: application/vnd.docker.distribution.manifest.v2+json`,
regardless of the content type supplied at PUT: the stored type is not
echoed back (it is not even persisted). -/
theorem c9_get_manifest_fixed_content_type (hm : HashModel) (st : RegState)
    (name reference : String) (content : Bytes)
    (hstored : alookup (name, reference) st.manifests = some content) :
    (get_manifest hm st name reference).status = 200 ∧
    (get_manifest hm st name reference).contentType =
      some "application/vnd.docker.distribution.manifest.v2+json" := by
  simp [get_manifest, hstored]

theorem c9_get_manifest_fixed_content_type_witness :
    (get_manifest ⟨fun _ => "m", fun _ => "f"⟩
        { manifests := [(("r", "t"), [3])] } "r" "t").status = 200 ∧
    (get_manifest ⟨fun _ => "m", fun _ => "f"⟩
        { manifests := [(("r", "t"), [3])] } "r" "t").contentType =
      some "application/vnd.docker.distribution.manifest.v2+json" :=
  c9_get_manifest_fixed_content_type ⟨fun _ => "m", fun _ => "f"⟩
    { manifests := [(("r", "t"), [3])] } "r" "t" [3] (by decide)

/-- **C5.** For a manifest PUT with a supported content type and valid
structure: if every `layers[].digest` and the `config.digest` pass
`blob_exists`, the PUT answers 201 and the raw bytes are stored under
both the reference and the computed digest; if any referenced blob is
missing, the PUT answers 404 `BLOB_UNKNOWN` and the state is unchanged
(the manifest is not stored). -/
theorem c5_manifest_referential_integrity (hm : HashModel) (st : RegState)
    (name reference ct : String) (m : Manifest) (mdata : Bytes)
    (hct : ct ∈ supportedManifestTypes) :
    ((m.layerDigests.all (fun d => blob_exists st d) &&
        blob_exists st m.configDigest) = true →
      (put_manifest hm st name reference (some ct) m mdata).2.status = 201 ∧
      alookup (name, reference)
        (put_manifest hm st name reference (some ct) m mdata).1.manifests =
        some mdata ∧
      alookup (name, "sha256:" ++ hm.sha256hex mdata)
        (put_manifest hm st name reference (some ct) m mdata).1.manifests =
        some mdata) ∧
    ((m.layerDigests.all (fun d => blob_exists st d) &&
        blob_exists st m.configDigest) = false →
      (put_manifest hm st name reference (some ct) m mdata).2.status = 404 ∧
      (put_manifest hm st name reference (some ct) m mdata).2.errorCode =
        some "BLOB_UNKNOWN" ∧
      (put_manifest hm st name reference (some ct) m mdata).1 = st) := by
  constructor
  · intro hall
    obtain ⟨hla, hcfg⟩ := (Bool.and_eq_true _ _).mp hall
    have hfind : m.layerDigests.find? (fun d => ! blob_exists st d) = none := by
      rw [List.find?_eq_none]
      intro x hx
      simp [List.all_eq_true.mp hla x hx]
    refine ⟨?_, ?_, ?_⟩ <;>
      simp only [put_manifest, hct, if_true, hfind, hcfg]
    · by_cases h : (name, reference) = (name, "sha256:" ++ hm.sha256hex mdata)
      · rw [h]
        exact alookup_aset_self _ _ _
      · rw [alookup_aset_ne _ _ h]
        exact alookup_aset_self _ _ _
    · exact alookup_aset_self _ _ _
  · intro hall
    cases hfind : m.layerDigests.find? (fun d => ! blob_exists st d) with
    | some d =>
        refine ⟨?_, ?_, ?_⟩ <;> simp only [put_manifest, hct, if_true, hfind]
    | none =>
        have hla : m.layerDigests.all (fun d => blob_exists st d) = true := by
          rw [List.all_eq_true]
          intro x hx
          have := List.find?_eq_none.mp hfind x hx
          simpa using this
        have hcfg : blob_exists st m.configDigest = false := by
          cases hc : blob_exists st m.configDigest with
          | false => rfl
          | true => rw [hla, hc] at hall; simp at hall
        refine ⟨?_, ?_, ?_⟩ <;>
          simp only [put_manifest, hct, if_true, hfind, hcfg, Bool.false_eq_true,
            if_false]

theorem c5_manifest_referential_integrity_witness :
    (((⟨["sha256:c"], "sha256:c"⟩ : Manifest).layerDigests.all
        (fun d => blob_exists { blocks := [("c", [0])] } d) &&
      blob_exists { blocks := [("c", [0])] }
        (⟨["sha256:c"], "sha256:c"⟩ : Manifest).configDigest) = true →
      (put_manifest ⟨fun _ => "m", fun _ => "f"⟩ { blocks := [("c", [0])] }
        "r" "t" (some "application/vnd.docker.distribution.manifest.v2+json")
        ⟨["sha256:c"], "sha256:c"⟩ [7]).2.status = 201 ∧
      alookup ("r", "t")
        (put_manifest ⟨fun _ => "m", fun _ => "f"⟩ { blocks := [("c", [0])] }
          "r" "t" (some "application/vnd.docker.distribution.manifest.v2+json")
          ⟨["sha256:c"], "sha256:c"⟩ [7]).1.manifests = some [7] ∧
      alookup ("r", "sha256:" ++ (⟨fun _ => "m", fun _ => "f"⟩ : HashModel).sha256hex [7])
        (put_manifest ⟨fun _ => "m", fun _ => "f"⟩ { blocks := [("c", [0])] }
          "r" "t" (some "application/vnd.docker.distribution.manifest.v2+json")
          ⟨["sha256:c"], "sha256:c"⟩ [7]).1.manifests = some [7]) ∧
    (((⟨["sha256:c"], "sha256:c"⟩ : Manifest).layerDigests.all
        (fun d => blob_exists { blocks := [("c", [0])] } d) &&
      blob_exists { blocks := [("c", [0])] }
        (⟨["sha256:c"], "sha256:c"⟩ : Manifest).configDigest) = false →
      (put_manifest ⟨fun _ => "m", fun _ => "f"⟩ { blocks := [("c", [0])] }
        "r" "t" (some "application/vnd.docker.distribution.manifest.v2+json")
        ⟨["sha256:c"], "sha256:c"⟩ [7]).2.status = 404 ∧
      (put_manifest ⟨fun _ => "m", fun _ => "f"⟩ { blocks := [("c", [0])] }
        "r" "t" (some "application/vnd.docker.distribution.manifest.v2+json")
        ⟨["sha256:c"], "sha256:c"⟩ [7]).2.errorCode = some "BLOB_UNKNOWN" ∧
      (put_manifest ⟨fun _ => "m", fun _ => "f"⟩ { blocks := [("c", [0])] }
        "r" "t" (some "application/vnd.docker.distribution.manifest.v2+json")
        ⟨["sha256:c"], "sha256:c"⟩ [7]).1 = { blocks := [("c", [0])] }) :=
  c5_manifest_referential_integrity ⟨fun _ => "m", fun _ => "f"⟩
    { blocks := [("c", [0])] } "r" "t"
    "application/vnd.docker.distribution.manifest.v2+json"
    ⟨["sha256:c"], "sha256:c"⟩ [7] (by decide)

/-- **C3, counterexample.** The chunk loop of the effective `store_blob`
consults only the in-memory index, not the filesystem, and writes the
block file directly (no `.tmp` + rename).  Start from a state where
`blocks/F` exists on disk with content `[9]` but `F` is not in the
index; storing a one-chunk blob whose chunk hashes to `F` *overwrites*
`blocks/F` with the new chunk bytes `[1]` — the block was written even
though `blocks/<fp>` existed, refuting "written only when the
fingerprint is absent from both the BlockIndex and the filesystem". -/
theorem c3_counterexample :
    alookup "F" ({ blocks := [("F", [9])] } : RegState).blocks = some [9] ∧
    "F" ∉ ({ blocks := [("F", [9])] } : RegState).index ∧
    store_blob ⟨fun _ => "D", fun _ => "F"⟩ { blocks := [("F", [9])] } [1]
        "sha256:D" =
      .ok { blocks := [("F", [1])], layers := [("D", ⟨none, some [1], some ["F"]⟩)],
            index := ["F"] } "sha256:D" ∧
    (some ([1] : Bytes) ≠ some ([9] : Bytes)) := by
  decide

/-- **C3, amended.** During a blob store, a block is written exactly when
its fingerprint is absent from the BlockIndex: fingerprints already in
the index are never (re)written (their `blocks/` file is untouched),
every window's fingerprint is indexed afterwards, and every window whose
fingerprint was not yet indexed ends up with a `blocks/` file holding a
same-fingerprint window.  The filesystem is not consulted — the index,
not the filesystem, is the authoritative check, and the write is a
direct `write_bytes`, not a tmp-file-plus-rename. -/
theorem c3_block_install_index_gated (hm : HashModel) (st : RegState)
    (X : Bytes) (digest : String)
    (hdigest : digest = "sha256:" ++ hm.sha256hex X)
    (hfresh : alookup (blobIdOf digest) st.layers = none) :
    ∃ st', store_blob hm st X digest = .ok st' digest ∧
      (∀ fp ∈ st.index, alookup fp st'.blocks = alookup fp st.blocks) ∧
      (∀ w ∈ chunkWindows X, hm.sha1hex w ∈ st'.index) ∧
      (∀ w ∈ chunkWindows X, hm.sha1hex w ∉ st.index →
        ∃ w', alookup (hm.sha1hex w) st'.blocks = some w' ∧
          hm.sha1hex w' = hm.sha1hex w ∧ w' ∈ chunkWindows X) := by
  subst hdigest
  refine ⟨{ st with
      blocks := (installChunks hm (chunkWindows X) st.blocks st.index).1,
      index := (installChunks hm (chunkWindows X) st.blocks st.index).2.1,
      layers := aset (blobIdOf ("sha256:" ++ hm.sha256hex X))
        ⟨none, some X, some (installChunks hm (chunkWindows X) st.blocks st.index).2.2⟩
        st.layers }, ?_, ?_, ?_, ?_⟩
  · simp [store_blob, hfresh]
  · intro fp hfp
    exact installChunks_lookup_indexed hm (chunkWindows X) st.blocks st.index fp hfp
  · intro w hw
    exact installChunks_window_indexed hm (chunkWindows X) st.blocks st.index w hw
  · intro w hw hni
    exact installChunks_new_written hm (chunkWindows X) st.blocks st.index w hw hni

theorem c3_block_install_index_gated_witness :
    ∃ st', store_blob ⟨fun _ => "D2", fun _ => "F2"⟩ { index := ["G"] } [1]
        "sha256:D2" = .ok st' "sha256:D2" ∧
      (∀ fp ∈ ({ index := ["G"] } : RegState).index,
        alookup fp st'.blocks = alookup fp ({ index := ["G"] } : RegState).blocks) ∧
      (∀ w ∈ chunkWindows [1],
        (⟨fun _ => "D2", fun _ => "F2"⟩ : HashModel).sha1hex w ∈ st'.index) ∧
      (∀ w ∈ chunkWindows [1],
        (⟨fun _ => "D2", fun _ => "F2"⟩ : HashModel).sha1hex w ∉
            ({ index := ["G"] } : RegState).index →
          ∃ w', alookup ((⟨fun _ => "D2", fun _ => "F2"⟩ : HashModel).sha1hex w)
              st'.blocks = some w' ∧
            (⟨fun _ => "D2", fun _ => "F2"⟩ : HashModel).sha1hex w' =
              (⟨fun _ => "D2", fun _ => "F2"⟩ : HashModel).sha1hex w ∧
            w' ∈ chunkWindows [1]) :=
  c3_block_install_index_gated ⟨fun _ => "D2", fun _ => "F2"⟩ { index := ["G"] }
    [1] "sha256:D2" (by decide) (by decide)

/-- **C6.** A successful fresh blob store slices the content into the
consecutive fixed 4096-byte windows (window `i` is
`X[4096*i : 4096*(i+1)]`, only the last may be shorter, and the windows
concatenate back to the content), and the stored recipe is the SHA-1 of
each window in order.  For 8192 zero bytes the recipe is two equal
fingerprints `sha1(zeros[:4096])`, `blocks/` grows by at most one entry,
and grows by none at all if that fingerprint was already indexed. -/
theorem c6_chunking (hm : HashModel) (st : RegState) (X : Bytes) (digest : String)
    (hdigest : digest = "sha256:" ++ hm.sha256hex X)
    (hfresh : alookup (blobIdOf digest) st.layers = none) :
    ∃ st', store_blob hm st X digest = .ok st' digest ∧
      alookup (blobIdOf digest) st'.layers =
        some { config := none, data := some X,
               recipe := some ((chunkWindows X).map hm.sha1hex) } ∧
      (∀ i, (chunkWindows X)[i]? =
        if 4096 * i < X.length then some ((X.drop (4096 * i)).take 4096)
        else none) ∧
      (chunkWindows X).flatten = X ∧
      (X = List.replicate 8192 0 →
        (chunkWindows X).map hm.sha1hex =
          [hm.sha1hex (List.replicate 4096 0),
           hm.sha1hex (List.replicate 4096 0)] ∧
        st'.blocks.length ≤ st.blocks.length + 1 ∧
        (hm.sha1hex (List.replicate 4096 0) ∈ st.index →
          st'.blocks = st.blocks)) := by
  subst hdigest
  refine ⟨{ st with
      blocks := (installChunks hm (chunkWindows X) st.blocks st.index).1,
      index := (installChunks hm (chunkWindows X) st.blocks st.index).2.1,
      layers := aset (blobIdOf ("sha256:" ++ hm.sha256hex X))
        ⟨none, some X, some (installChunks hm (chunkWindows X) st.blocks st.index).2.2⟩
        st.layers }, ?_, ?_, ?_, ?_, ?_⟩
  · simp [store_blob, hfresh]
  · rw [show ({ st with
        blocks := (installChunks hm (chunkWindows X) st.blocks st.index).1,
        index := (installChunks hm (chunkWindows X) st.blocks st.index).2.1,
        layers := aset (blobIdOf ("sha256:" ++ hm.sha256hex X))
          ⟨none, some X, some (installChunks hm (chunkWindows X) st.blocks st.index).2.2⟩
          st.layers } : RegState).layers =
      aset (blobIdOf ("sha256:" ++ hm.sha256hex X))
        ⟨none, some X, some (installChunks hm (chunkWindows X) st.blocks st.index).2.2⟩
        st.layers from rfl]
    rw [alookup_aset_self, installChunks_recipe]
  · exact chunkWindows_getElem? X
  · exact chunkWindows_flatten X
  · intro hzero
    subst hzero
    rw [chunkWindows_zeros8192]
    refine ⟨rfl, ?_, ?_⟩
    · exact (installChunks_pair hm (List.replicate 4096 0) st.blocks st.index).1
    · exact (installChunks_pair hm (List.replicate 4096 0) st.blocks st.index).2

theorem c6_chunking_witness :
    ∃ st', store_blob ⟨fun _ => "D3", fun _ => "F3"⟩ ({} : RegState) [2]
        "sha256:D3" = .ok st' "sha256:D3" ∧
      alookup (blobIdOf "sha256:D3") st'.layers =
        some { config := none, data := some [2],
               recipe := some ((chunkWindows [2]).map
                 (⟨fun _ => "D3", fun _ => "F3"⟩ : HashModel).sha1hex) } ∧
      (∀ i, (chunkWindows [2])[i]? =
        if 4096 * i < List.length [2] then
          some ((List.drop (4096 * i) [2]).take 4096)
        else none) ∧
      (chunkWindows [2]).flatten = [2] ∧
      (([2] : Bytes) = List.replicate 8192 0 →
        (chunkWindows [2]).map (⟨fun _ => "D3", fun _ => "F3"⟩ : HashModel).sha1hex =
          [(⟨fun _ => "D3", fun _ => "F3"⟩ : HashModel).sha1hex (List.replicate 4096 0),
           (⟨fun _ => "D3", fun _ => "F3"⟩ : HashModel).sha1hex (List.replicate 4096 0)] ∧
        st'.blocks.length ≤ ({} : RegState).blocks.length + 1 ∧
        ((⟨fun _ => "D3", fun _ => "F3"⟩ : HashModel).sha1hex (List.replicate 4096 0) ∈
            ({} : RegState).index →
          st'.blocks = ({} : RegState).blocks)) :=
  c6_chunking ⟨fun _ => "D3", fun _ => "F3"⟩ {} [2] "sha256:D3"
    (by decide) (by decide)

/-- A state with a recipe-only blob `y` whose single block `g` is
present with content `[1, 2]`. -/
def c7okSt : RegState :=
  { blocks := [("g", [1, 2])], layers := [("y", ⟨none, none, some ["g"]⟩)] }

/-- A state with a recipe-only blob `x` whose single referenced block
`f` is missing from `blocks/`. -/
def c7badSt : RegState :=
  { layers := [("x", ⟨none, none, some ["f"]⟩)] }

/-- **C7, counterexample.** For a recipe-only blob referencing a missing
block, GET answers 404 but HEAD answers 200 with `Content-Length: 0`:
`head_blob`'s recipe branch sums only the block files that exist and
never fails, refuting the claim that *both* GET and HEAD fail with 404
`BLOB_UNKNOWN` when a referenced block file is missing. -/
theorem c7_counterexample :
    alookup (blobIdOf "sha256:x") c7badSt.layers =
      some ⟨none, none, some ["f"]⟩ ∧
    alookup "f" c7badSt.blocks = none ∧
    (get_blob c7badSt "sha256:x").status = 404 ∧
    (head_blob c7badSt "sha256:x").status = 200 ∧
    (head_blob c7badSt "sha256:x").contentLength = some 0 := by
  decide

/-- **C7, amended.** For a blob served from a recipe (no `config` or
`data` file): when every referenced block is present, GET and HEAD both
answer 200 with `Content-Length` equal to the sum of the block file
sizes, and the GET body is the concatenation of the blocks — so when the
blocks concatenate to the original content `X'`, the reported size is
exactly `|X'|`.  When a referenced block is missing, GET fails with 404
`BLOB_UNKNOWN`, but HEAD still answers 200 with the sum over only the
present blocks. -/
theorem c7_recipe_serving (st : RegState) (digest : String) (chunks : List String)
    (hpre : pyStartsWith digest "sha256:" = true)
    (hentry : alookup (blobIdOf digest) st.layers =
      some { config := none, data := none, recipe := some chunks }) :
    (∀ bs, chunksContents st chunks = some bs →
      (get_blob st digest).status = 200 ∧
      (get_blob st digest).body = some bs.flatten ∧
      (get_blob st digest).contentLength = some (bs.map List.length).sum ∧
      (head_blob st digest).status = 200 ∧
      (head_blob st digest).contentLength = some (bs.map List.length).sum) ∧
    ((∃ fp ∈ chunks, alookup fp st.blocks = none) →
      (get_blob st digest).status = 404 ∧
      (get_blob st digest).errorCode = some "BLOB_UNKNOWN" ∧
      (head_blob st digest).status = 200 ∧
      (head_blob st digest).contentLength =
        some (((chunks.filterMap (fun fp => alookup fp st.blocks)).map
          List.length).sum)) ∧
    (∀ bs X', chunksContents st chunks = some bs → bs.flatten = X' →
      (get_blob st digest).body = some X' ∧
      (get_blob st digest).contentLength = some X'.length) := by
  refine ⟨?_, ?_, ?_⟩
  · intro bs hbs
    have hfm := chunksContents_filterMap st chunks bs hbs
    refine ⟨?_, ?_, ?_, ?_, ?_⟩ <;>
      simp [get_blob, head_blob, hpre, hentry, hbs, hfm]
  · intro hex
    have hnone := chunksContents_eq_none st chunks hex
    refine ⟨?_, ?_, ?_, ?_⟩ <;>
      simp [get_blob, head_blob, hpre, hentry, hnone]
  · intro bs X' hbs hflat
    have hlen : (bs.map List.length).sum = X'.length := by
      rw [← hflat]
      exact (List.length_flatten bs).symm
    refine ⟨?_, ?_⟩ <;> simp [get_blob, hpre, hentry, hbs, hflat, hlen]

theorem c7_recipe_serving_witness :
    (∀ bs, chunksContents c7okSt ["g"] = some bs →
      (get_blob c7okSt "sha256:y").status = 200 ∧
      (get_blob c7okSt "sha256:y").body = some bs.flatten ∧
      (get_blob c7okSt "sha256:y").contentLength = some (bs.map List.length).sum ∧
      (head_blob c7okSt "sha256:y").status = 200 ∧
      (head_blob c7okSt "sha256:y").contentLength =
        some (bs.map List.length).sum) ∧
    ((∃ fp ∈ ["g"], alookup fp c7okSt.blocks = none) →
      (get_blob c7okSt "sha256:y").status = 404 ∧
      (get_blob c7okSt "sha256:y").errorCode = some "BLOB_UNKNOWN" ∧
      (head_blob c7okSt "sha256:y").status = 200 ∧
      (head_blob c7okSt "sha256:y").contentLength =
        some (((["g"].filterMap (fun fp => alookup fp c7okSt.blocks)).map
          List.length).sum)) ∧
    (∀ bs X', chunksContents c7okSt ["g"] = some bs → bs.flatten = X' →
      (get_blob c7okSt "sha256:y").body = some X' ∧
      (get_blob c7okSt "sha256:y").contentLength = some X'.length) :=
  c7_recipe_serving c7okSt "sha256:y" ["g"] (by decide) (by decide)

/-- **C1.** Round-trip identity: after a successful finalize PUT of
bytes `X` with declared digest `"sha256:" + sha256hex(X)` (assuming the
layer directory is well-formed and SHA-256 is collision-free at `X`), a
GET of the blob answers 200 with a body byte-identical to `X` and
`Content-Length` equal to `|X|`. -/
theorem c1_round_trip (hm : HashModel) (st : RegState) (uid : String)
    (X body staged : Bytes) (digest : String)
    (hInv : LayersInv hm st)
    (hcoll : ∀ Y, blobIdOf ("sha256:" ++ hm.sha256hex Y) =
      blobIdOf ("sha256:" ++ hm.sha256hex X) → Y = X)
    (hsession : alookup uid st.uploads = some staged)
    (hreceived : (if body.length ≠ 0 then body else staged) = X)
    (hdigest : digest = "sha256:" ++ hm.sha256hex X) :
    (put_upload hm st uid (some digest) body).2.status = 201 ∧
    (get_blob (put_upload hm st uid (some digest) body).1 digest).status = 200 ∧
    (get_blob (put_upload hm st uid (some digest) body).1 digest).body = some X ∧
    (get_blob (put_upload hm st uid (some digest) body).1 digest).contentLength =
      some X.length := by
  subst hdigest
  have hpre : pyStartsWith ("sha256:" ++ hm.sha256hex X) "sha256:" = true :=
    pyStartsWith_append _ _
  cases halook : alookup (blobIdOf ("sha256:" ++ hm.sha256hex X)) st.layers with
  | none =>
      have hstore : store_blob hm st X ("sha256:" ++ hm.sha256hex X) =
          .ok { st with
            blocks := (installChunks hm (chunkWindows X) st.blocks st.index).1,
            index := (installChunks hm (chunkWindows X) st.blocks st.index).2.1,
            layers := aset (blobIdOf ("sha256:" ++ hm.sha256hex X))
              ⟨none, some X,
               some (installChunks hm (chunkWindows X) st.blocks st.index).2.2⟩
              st.layers } ("sha256:" ++ hm.sha256hex X) := by
        simp [store_blob, halook]
      refine ⟨?_, ?_, ?_, ?_⟩ <;>
        simp only [put_upload, hpre, if_true, hsession, hreceived, hstore] <;>
        simp [get_blob, hpre, alookup_aset_self]
  | some e =>
      obtain ⟨hconf, Y, hdata, hid⟩ := hInv _ e halook
      have hYX : Y = X := hcoll Y hid
      rw [hYX] at hdata
      have hstore : store_blob hm st X ("sha256:" ++ hm.sha256hex X) =
          .ok st ("sha256:" ++ hm.sha256hex X) := by
        simp [store_blob, halook]
      refine ⟨?_, ?_, ?_, ?_⟩ <;>
        simp only [put_upload, hpre, if_true, hsession, hreceived, hstore] <;>
        simp [get_blob, hpre, halook, hconf, hdata]

theorem c1_round_trip_witness :
    (put_upload ⟨fun Y => if Y = [65] then "A" else "B", fun _ => "s"⟩
        { uploads := [("u", [65])] } "u" (some "sha256:A") []).2.status = 201 ∧
    (get_blob (put_upload ⟨fun Y => if Y = [65] then "A" else "B", fun _ => "s"⟩
        { uploads := [("u", [65])] } "u" (some "sha256:A") []).1
      "sha256:A").status = 200 ∧
    (get_blob (put_upload ⟨fun Y => if Y = [65] then "A" else "B", fun _ => "s"⟩
        { uploads := [("u", [65])] } "u" (some "sha256:A") []).1
      "sha256:A").body = some [65] ∧
    (get_blob (put_upload ⟨fun Y => if Y = [65] then "A" else "B", fun _ => "s"⟩
        { uploads := [("u", [65])] } "u" (some "sha256:A") []).1
      "sha256:A").contentLength = some (List.length [65]) :=
  c1_round_trip ⟨fun Y => if Y = [65] then "A" else "B", fun _ => "s"⟩
    { uploads := [("u", [65])] } "u" [65] [] [65] "sha256:A"
    (by intro id e h; simp [alookup] at h)
    (by
      intro Y h
      by_cases hY : Y = [65]
      · exact hY
      · exfalso
        rw [show (⟨fun Y => if Y = [65] then "A" else "B", fun _ => "s"⟩ :
            HashModel).sha256hex Y = "B" from by simp [hY]] at h
        rw [show (⟨fun Y => if Y = [65] then "A" else "B", fun _ => "s"⟩ :
            HashModel).sha256hex [65] = "A" from by simp] at h
        exact absurd h (by decide))
    (by decide) (by decide) (by decide)
